import Mathlib

/-!
Shallow embedding of the Go-SFDeploy deployment tool (Go sources:
`main.go`, `config.go`, and the combined legacy file) together with
theorems about its pipeline, configuration collection, toolchain
resolution, build, deploy, restart and cleanup logic.

Strings are Lean `String`s; filesystem state, external process results
and interactive input are passed explicitly as structure fields; every
definition mirrors the corresponding Go function.
-/

namespace SFDeploy

/-! ### String helpers mirroring the Go standard library calls used -/

/-- `unicode.IsSpace` restricted to the ASCII whitespace the tool can
actually receive from `bufio.Reader.ReadString`. -/
def isSpaceChar (c : Char) : Bool :=
  c = ' ' || c = '\t' || c = '\n' || c = '\r'

/-- `strings.TrimSpace`: drop whitespace from both ends. -/
def trimSpace (s : String) : String :=
  String.mk (((s.data.dropWhile isSpaceChar).reverse.dropWhile isSpaceChar).reverse)

/-- Leading-segment test on character lists. -/
def startsWithChars : List Char → List Char → Bool
  | [], _ => true
  | _ :: _, [] => false
  | a :: as, b :: bs => a = b && startsWithChars as bs

/-- Substring containment on character lists (needle contained in haystack). -/
def hasSubstrAux (needle : List Char) : List Char → Bool
  | [] => needle.isEmpty
  | h :: hs => startsWithChars needle (h :: hs) || hasSubstrAux needle hs

/-- `strings.Contains`. -/
def containsSubstr (s sub : String) : Bool :=
  hasSubstrAux sub.data s.data

/-- Trailing-segment test on character lists. -/
def endsWithChars (needle hay : List Char) : Bool :=
  startsWithChars needle.reverse hay.reverse

/-- Lower-casing as done by `strings.ToLower` on ASCII names. -/
def toLowerStr (s : String) : String :=
  String.mk (s.data.map Char.toLower)

/-- `strings.HasSuffix(strings.ToLower(name), ext)`: the
case-insensitive extension test the tool applies to file names. -/
def lowerEndsWith (name ext : String) : Bool :=
  endsWithChars ext.data (toLowerStr name).data

/-- Case-sensitive `*.jar` name match used by `filepath.Glob` patterns. -/
def endsWithJar (name : String) : Bool :=
  endsWithChars ".jar".data name.data

/-- `strings.Fields`: split around runs of whitespace. -/
def fieldsAux : List Char → List Char → List (List Char)
  | [], [] => []
  | [], cur => [cur.reverse]
  | c :: cs, cur =>
    if isSpaceChar c then
      match cur with
      | [] => fieldsAux cs []
      | _ :: _ => cur.reverse :: fieldsAux cs []
    else fieldsAux cs (c :: cur)

/-- `strings.Fields` on a `String`. -/
def stringFields (s : String) : List String :=
  (fieldsAux s.data []).map String.mk

/-- `strings.Join`. -/
def joinSep (sep : String) : List String → String
  | [] => ""
  | [x] => x
  | x :: y :: xs => x ++ sep ++ joinSep sep (y :: xs)

/-- OS path separator: `\` on Windows, `/` elsewhere. -/
def pathSep (win : Bool) : String := if win then "\\" else "/"

/-- `filepath.Join` of two components (inputs here are never empty and
never carry trailing separators, so no cleaning is needed). -/
def joinPath (win : Bool) (a b : String) : String :=
  a ++ pathSep win ++ b

/-- `filepath.Dir`: drop the final path element and its separator;
`"."` when the path has no separator. -/
def parentDir (p : String) : String :=
  match (p.data.reverse).dropWhile (fun c => !(c = '/' || c = '\\')) with
  | [] => "."
  | _ :: rest => String.mk rest.reverse

/-! ### C1: the five-phase pipeline (`main`, main.go lines 9-38 /
legacy lines 26-57) -/

/-- The five deployment phases, in the order `main` runs them. -/
inductive Phase
  | setup
  | build
  | deploy
  | restart
  | cleanup
deriving DecidableEq, Repr

/-- Outcome of each phase handler for one run: `setupDirectories`,
`buildProject`, `deployProject`, `restartServer`, `cleanupProject`
each return a boolean. -/
structure Handlers where
  setup : Bool
  build : Bool
  deploy : Bool
  restart : Bool
  cleanup : Bool
deriving DecidableEq

/-- Result a given handler returns. -/
def handlerResult (h : Handlers) : Phase → Bool
  | .setup => h.setup
  | .build => h.build
  | .deploy => h.deploy
  | .restart => h.restart
  | .cleanup => h.cleanup

/-- The fixed phase sequence of `main`. -/
def phaseOrder : List Phase :=
  [Phase.setup, Phase.build, Phase.deploy, Phase.restart, Phase.cleanup]

/-- `main`: run the handlers in order, returning early on the first
failure; the second component is `true` exactly when the final
"Hot deploy completed successfully!" message is reached. The first
component lists the handlers that were invoked, in invocation order. -/
def mainRun (h : Handlers) : List Phase × Bool :=
  if h.setup = false then ([Phase.setup], false)
  else if h.build = false then ([Phase.setup, Phase.build], false)
  else if h.deploy = false then ([Phase.setup, Phase.build, Phase.deploy], false)
  else if h.restart = false then
    ([Phase.setup, Phase.build, Phase.deploy, Phase.restart], false)
  else if h.cleanup = false then (phaseOrder, false)
  else (phaseOrder, true)

/-! ### C2: extension-folder collection loop (config.go lines 114-126 /
legacy lines 134-146) -/

/-- The acceptance test of the extension-folder loop: after trimming,
the name must be non-empty and contain no `:`, `\` or `/`. -/
def validExtensionFolder (s : String) : Bool :=
  s ≠ "" && !(containsSubstr s ":") && !(containsSubstr s "\\") && !(containsSubstr s "/")

/-- The `for` loop that prompts for the extension folder name, modelled
over the sequence of operator inputs: each input is trimmed, tested,
and the loop repeats on rejection; `none` when the input stream runs
out before an acceptable value arrives. -/
def collectExtensionFolder : List String → Option String
  | [] => none
  | input :: rest =>
    let t := trimSpace input
    if validExtensionFolder t then some t else collectExtensionFolder rest

/-! ### C3: toolchain resolution (`findJava11Path`, legacy lines 262-318,
and `isJava11`, legacy lines 380-390) -/

/-- The external world `findJava11Path` consults: environment variable,
search-path lookup, glob results, file existence, the combined
output of `javac -version` per candidate path, and the interactive
fallback line. -/
structure JavaEnv where
  goosWindows : Bool
  javaHome : String
  lookPathJavac : Option String
  glob : String → List String
  statOk : String → Bool
  versionOutput : String → Option String
  userInput : String

/-- `isJava11`: run the candidate with `-version`; on error the
candidate is rejected, otherwise the combined output must contain
`"11."` or `"javac 11"`. -/
def isJava11 (e : JavaEnv) (javacPath : String) : Bool :=
  match e.versionOutput javacPath with
  | none => false
  | some out => containsSubstr out "11." || containsSubstr out "javac 11"

/-- The fixed Windows glob patterns of `findJava11Path`. -/
def commonJdkPatterns : List String :=
  ["C:\\Program Files\\Eclipse Adoptium\\jdk-11*\\bin\\javac.exe",
   "C:\\Program Files\\Java\\jdk-11*\\bin\\javac.exe",
   "C:\\Program Files\\OpenJDK\\jdk-11*\\bin\\javac.exe",
   "C:\\Program Files (x86)\\Eclipse Adoptium\\jdk-11*\\bin\\javac.exe"]

/-- Strategy 1: `JAVA_HOME`'s `bin` compiler, version-checked. -/
def stratEnvHome (e : JavaEnv) : Option String :=
  if e.javaHome ≠ "" then
    let javacPath := joinPath e.goosWindows (joinPath e.goosWindows e.javaHome "bin") "javac"
      ++ (if e.goosWindows then ".exe" else "")
    if e.statOk javacPath && isJava11 e javacPath then some (parentDir javacPath)
    else none
  else none

/-- Strategy 2: `javac` on the execution search path, version-checked. -/
def stratLookPath (e : JavaEnv) : Option String :=
  match e.lookPathJavac with
  | none => none
  | some p => if isJava11 e p then some (parentDir p) else none

/-- Inner loop of strategy 3: first glob match that exists and passes
the version check yields its containing directory. -/
def globScanMatches (e : JavaEnv) : List String → Option String
  | [] => none
  | p :: ps =>
    if e.statOk p && isJava11 e p then some (parentDir p)
    else globScanMatches e ps

/-- Outer loop of strategy 3 over the fixed pattern list. -/
def globScanPatterns (e : JavaEnv) : List String → Option String
  | [] => none
  | pat :: pats =>
    match globScanMatches e (e.glob pat) with
    | some d => some d
    | none => globScanPatterns e pats

/-- Strategy 3: the well-known Windows install locations. -/
def stratGlob (e : JavaEnv) : Option String :=
  if e.goosWindows then globScanPatterns e commonJdkPatterns else none

/-- Strategy 4, the interactive fallback: trim the operator's line;
accept a non-empty directory whenever `javac` exists under it —
note no version check — else return `""`. -/
def stratPromptFallback (e : JavaEnv) : String :=
  let userPath := trimSpace e.userInput
  if userPath ≠ "" then
    let javacPath := joinPath e.goosWindows userPath "javac"
      ++ (if e.goosWindows then ".exe" else "")
    if e.statOk javacPath then userPath else ""
  else ""

/-- `findJava11Path`: the four strategies in source order, first
success wins; `""` signals overall failure. -/
def findJava11Path (e : JavaEnv) : String :=
  match stratEnvHome e with
  | some d => d
  | none =>
    match stratLookPath e with
    | some d => d
    | none =>
      match stratGlob e with
      | some d => d
      | none => stratPromptFallback e

/-- A concrete environment in which every automatic strategy is
exhausted (no `JAVA_HOME`, no search-path hit, no glob match) and
the operator's fallback directory holds a `javac.exe` whose version
probe errors out, so no candidate ever passes the version check. -/
def promptOnlyJavaEnv : JavaEnv where
  goosWindows := true
  javaHome := ""
  lookPathJavac := none
  glob := fun _ => []
  statOk := fun p => p == "C:\\myjdk\\javac.exe"
  versionOutput := fun _ => none
  userInput := "C:\\myjdk"

/-- A concrete environment realising the resolution scenario:
`JAVA_HOME` unset, search-path lookup failing, exactly one
well-known glob pattern matching a compiler whose version output
contains the expected token. -/
def scenarioJavaEnv : JavaEnv where
  goosWindows := true
  javaHome := ""
  lookPathJavac := none
  glob := fun pat =>
    if pat == "C:\\Program Files\\Java\\jdk-11*\\bin\\javac.exe" then
      ["C:\\Program Files\\Java\\jdk-11.0.2\\bin\\javac.exe"]
    else []
  statOk := fun _ => true
  versionOutput := fun p =>
    if p == "C:\\Program Files\\Java\\jdk-11.0.2\\bin\\javac.exe" then some "javac 11.0.2"
    else none
  userInput := ""

/-! ### C4: deploy phase (`deployProject`, legacy lines 601-644) -/

/-- State `deployProject` reads and writes: whether `os.MkdirAll`
succeeds, the file names currently in the target extension
directory (in enumeration order), which individual removals the
operating system refuses, and whether the byte copy of the built
archive succeeds. The window-discovery and port-kill steps in
between touch processes, not this directory, so they do not appear
in the directory transition. -/
structure DeployEnv where
  mkdirOk : Bool
  extDirFiles : List String
  removeFails : String → Bool
  copyOk : Bool

/-- What one deploy run reports: the phase result, the extension
directory contents afterwards, and the per-file removal failures
that were warned about. -/
structure DeployOutcome where
  ok : Bool
  extDirFiles : List String
  removeWarnings : Nat

/-- `deployProject`'s effect on the extension directory: create it,
glob `*.jar` and attempt to remove each match — a failed removal
only warns and leaves the file in place — then copy
`ServerExtension.jar` in (`os.Create` overwrites a surviving
same-named entry rather than duplicating it); a copy failure is
fatal, removal failures are not. -/
def deployProject (env : DeployEnv) : DeployOutcome :=
  if env.mkdirOk = false then ⟨false, env.extDirFiles, 0⟩
  else
    let jarFiles := env.extDirFiles.filter (fun f => endsWithJar f)
    let warned := jarFiles.filter (fun f => env.removeFails f)
    let afterRemove :=
      env.extDirFiles.filter (fun f => !(endsWithJar f && !(env.removeFails f)))
    if env.copyOk = false then ⟨false, afterRemove, warned.length⟩
    else
      ⟨true,
        afterRemove.filter (fun f => !(f == "ServerExtension.jar")) ++ ["ServerExtension.jar"],
        warned.length⟩

/-- A concrete deploy environment whose single pre-existing archive
`old.jar` the operating system refuses to remove (say, a held file
lock), while directory creation and the copy both succeed. -/
def lockedOldJarDeployEnv : DeployEnv where
  mkdirOk := true
  extDirFiles := ["old.jar"]
  removeFails := fun f => f == "old.jar"
  copyOk := true

/-! ### C5: port-bound process termination (`killPort9933`, legacy
lines 523-546) -/

/-- The line filter of `killPort9933`: the line must contain both
`":9933"` and `"LISTENING"`. -/
def listensOn9933 (line : String) : Bool :=
  containsSubstr line ":9933" && containsSubstr line "LISTENING"

/-- Per-line body of `killPort9933`'s loop: a matching line with at
least five whitespace-separated fields contributes its last field
as a kill target. -/
def killLinePids (line : String) : List String :=
  if listensOn9933 line then
    let parts := stringFields line
    if parts.length ≥ 5 then [parts.getLastD ""] else []
  else []

/-- `killPort9933`: no-op off Windows or when `netstat` fails;
otherwise the ordered list of process identifiers passed to
`taskkill /PID _ /F`, one invocation per matching line. -/
def killPort9933 (goosWindows : Bool) (netstat : Option (List String)) : List String :=
  if goosWindows = false then []
  else
    match netstat with
    | none => []
    | some lines => (lines.map killLinePids).flatten

/-! ### C6: classpath construction (`buildClasspath`, legacy
lines 483-521) -/

/-- The essential SmartFox archive patterns tried when the primary
glob is empty. -/
def requiredJars : List String :=
  ["sfs2x.jar", "sfs2x-core.jar", "sfs2x-api.jar", "slf4j-api*.jar", "logback*.jar"]

/-- `buildClasspath`: glob `*.jar` under the server lib directory; if
empty, glob each required pattern; if still empty, warn and use
`"."`; otherwise join with `;` on Windows and `:` elsewhere. -/
def buildClasspath (win : Bool) (glob : String → List String) (serverLibDir : String) : String :=
  let jarFiles := glob (joinPath win serverLibDir "*.jar")
  let classpathParts := jarFiles
  let classpathParts :=
    if classpathParts.length = 0 then
      requiredJars.foldl (fun acc pat => acc ++ glob (joinPath win serverLibDir pat)) []
    else classpathParts
  if classpathParts.length = 0 then "."
  else joinSep (if win then ";" else ":") classpathParts

/-! ### File trees for the recursive walks (`filepath.Walk`) -/

/-- A directory tree as `filepath.Walk` traverses it: files carry
their names, directories their children in enumeration order. -/
inductive FSTree
  | file (name : String)
  | dir (name : String) (children : List FSTree)
deriving Repr

/-- `findJavaFiles` (legacy lines 469-481): collect every file whose
lower-cased name ends in `.java`, in walk order. -/
def findJavaFilesTree : FSTree → List String
  | .file n => if lowerEndsWith n ".java" then [n] else []
  | .dir _ [] => []
  | .dir d (c :: cs) => findJavaFilesTree c ++ findJavaFilesTree (.dir d cs)

/-- `hasJavaFiles` (config.go lines 183-196): walk until the first
`.java` file; the flag is set at the first hit and the rest of the
walk cannot unset it. -/
def hasJavaFilesTree : FSTree → Bool
  | .file n => lowerEndsWith n ".java"
  | .dir _ [] => false
  | .dir d (c :: cs) => hasJavaFilesTree c || hasJavaFilesTree (.dir d cs)

/-! ### C7: build phase (`buildProject`, legacy lines 392-455) -/

/-- What `buildProject` consumes: the source tree under
`sourceDir/src`, and the exit status of the external `javac` and
`jar` invocations should they happen. -/
structure BuildEnv where
  srcTree : FSTree
  compileOk : Bool
  jarOk : Bool

/-- What `buildProject` produces: the phase result plus whether the
external compiler and the packaging tool were invoked at all. -/
structure BuildOutcome where
  ok : Bool
  compilerInvoked : Bool
  jarInvoked : Bool
deriving DecidableEq, Repr

/-- `buildProject`: clean stale `.class` files (no external tool),
enumerate `.java` sources; none found fails at once; otherwise run
`javac`, and on its success run `jar`, failing on a non-zero exit
of either. -/
def buildProject (env : BuildEnv) : BuildOutcome :=
  let javaFiles := findJavaFilesTree env.srcTree
  if javaFiles.length = 0 then ⟨false, false, false⟩
  else if env.compileOk = false then ⟨false, true, false⟩
  else if env.jarOk = false then ⟨false, true, true⟩
  else ⟨true, true, true⟩

/-! ### C8: cleanup phase (`cleanupProject`, legacy lines 646-685) -/

/-- State `cleanupProject` works on: the walk enumeration of file
paths under `sourceDir/src`, the file names at the source root
(whose `*.jar` glob is taken), and which individual removals the
operating system refuses. -/
structure CleanupFS where
  srcFiles : List String
  rootFiles : List String
  removeFails : String → Bool

/-- What one cleanup run reports: the state afterwards, the removed
`.class` count, the removed archive count, the per-file archive
removal failures that were warned about, and the phase result. -/
structure CleanupOutcome where
  fs : CleanupFS
  classRemoved : Nat
  jarRemoved : Nat
  jarWarnings : Nat
  ok : Bool

/-- `cleanupProject`: walk `src` removing `.class` files (counting
successes), glob `*.jar` at the source root removing each match
(counting successes, warning per failure), and return `true`
unconditionally. -/
def cleanupProject (fs : CleanupFS) : CleanupOutcome :=
  let classTargets := fs.srcFiles.filter (fun p => lowerEndsWith p ".class")
  let classGone := classTargets.filter (fun p => !(fs.removeFails p))
  let srcFilesNext :=
    fs.srcFiles.filter (fun p => !(lowerEndsWith p ".class" && !(fs.removeFails p)))
  let jarTargets := fs.rootFiles.filter (fun p => endsWithJar p)
  let jarGone := jarTargets.filter (fun p => !(fs.removeFails p))
  let jarKept := jarTargets.filter (fun p => fs.removeFails p)
  let rootFilesNext :=
    fs.rootFiles.filter (fun p => !(endsWithJar p && !(fs.removeFails p)))
  ⟨⟨srcFilesNext, rootFilesNext, fs.removeFails⟩,
    classGone.length, jarGone.length, jarKept.length, true⟩

/-- An already-clean source tree: no `.class` file under `src` and no
archive at the source root. -/
def cleanSourceTree (fs : CleanupFS) : Prop :=
  (∀ p ∈ fs.srcFiles, lowerEndsWith p ".class" = false) ∧
  (∀ p ∈ fs.rootFiles, endsWithJar p = false)

/-! ### C9: source-tree validation (`validateSourceDir`, config.go
lines 144-155) -/

/-- The filesystem facts `validateSourceDir` consults: existence of
the configured directory, existence of its `src` subdirectory, and
the tree below `src`. -/
structure SourceFS where
  dirExists : Bool
  srcExists : Bool
  srcTree : FSTree

/-- `validateSourceDir`: fail when the directory is missing, fail when
`src` is missing, otherwise report whether `src` holds a `.java`
file. -/
def validateSourceDir (fs : SourceFS) : Bool :=
  if fs.dirExists = false then false
  else if fs.srcExists = false then false
  else hasJavaFilesTree fs.srcTree

/-! ### C10: restart phase (`restartServer`, legacy lines 704-776, and
the global `smartFoxCmdPid`, legacy line 24) -/

/-- The externally visible actions of `restartServer`, in order. -/
inductive RestartEvent
  | checkAlive (pid : String)
  | killOld (pid : String)
  | writeScript
  | spawnWindow
deriving DecidableEq, Repr

/-- What `restartServer` consults: the global `smartFoxCmdPid` on
entry, whether `tasklist` succeeds and shows `cmd.exe` for that
identifier, and whether the wrapper-script write and the terminal
spawn succeed. -/
structure RestartEnv where
  storedPid : String
  tasklistShowsCmd : Bool
  writeBatOk : Bool
  startCmdOk : Bool

/-- What one restart run produces: the phase result, the value of the
global `smartFoxCmdPid` afterwards, and the ordered action trace. -/
structure RestartOutcome where
  ok : Bool
  storedPidAfter : String
  events : List RestartEvent

/-- `restartServer`: when a discovered window identifier is stored,
probe it with `tasklist` and forcibly terminate it if it is still a
live `cmd.exe`, then reset the stored identifier; in every case
write the wrapper script and spawn a brand-new terminal window,
failing the phase only when the write or the spawn fails. -/
def restartServer (env : RestartEnv) : RestartOutcome :=
  let oldWindowEvents :=
    if env.storedPid ≠ "" then
      if env.tasklistShowsCmd then
        [RestartEvent.checkAlive env.storedPid, RestartEvent.killOld env.storedPid]
      else [RestartEvent.checkAlive env.storedPid]
    else []
  let pidNext := if env.storedPid ≠ "" then "" else env.storedPid
  if env.writeBatOk = false then
    ⟨false, pidNext, oldWindowEvents ++ [RestartEvent.writeScript]⟩
  else if env.startCmdOk = false then
    ⟨false, pidNext, oldWindowEvents ++ [RestartEvent.writeScript, RestartEvent.spawnWindow]⟩
  else
    ⟨true, pidNext, oldWindowEvents ++ [RestartEvent.writeScript, RestartEvent.spawnWindow]⟩

/-! ## Theorems -/

/-- C1: `main` runs the five phase handlers in the fixed order setup,
build, deploy, restart, cleanup; the invoked handlers always form a
prefix of that order, every invoked handler except possibly the
last returned success, a run that misses the final success message
ends at a failed handler with nothing invoked after it, and the
success message is reached exactly when all five handlers
succeed. -/
theorem pipeline_phase_order (h : Handlers) :
    (mainRun h).1 = phaseOrder.take (mainRun h).1.length ∧
    (∀ p ∈ (mainRun h).1.dropLast, handlerResult h p = true) ∧
    ((mainRun h).2 = (h.setup && h.build && h.deploy && h.restart && h.cleanup)) ∧
    ((mainRun h).2 = false → ((mainRun h).1.getLast?).map (handlerResult h) = some false) ∧
    ((mainRun h).2 = true → (mainRun h).1 = phaseOrder) := by
  obtain ⟨s, b, d, r, c⟩ := h
  cases s <;> cases b <;> cases d <;> cases r <;> cases c <;> decide

/-- Witness for C1: a run whose deploy handler fails invokes exactly
setup, build, deploy, all invoked handlers before the failed one
succeeded, and the success message is not reached. -/
theorem pipeline_phase_order_witness :
    (∀ p ∈ (mainRun ⟨true, true, false, true, true⟩).1.dropLast,
       handlerResult ⟨true, true, false, true, true⟩ p = true) ∧
    (mainRun ⟨true, true, false, true, true⟩).2 = false ∧
    (mainRun ⟨true, true, false, true, true⟩).1 = [Phase.setup, Phase.build, Phase.deploy] :=
  ⟨(pipeline_phase_order ⟨true, true, false, true, true⟩).2.1, by decide, by decide⟩

/-- C2: the extension-folder collection loop only ever hands back a
value that is non-empty and free of `:`, `\` and `/`, and an input
whose trimmed form violates that is rejected, the loop moving on to
re-prompt. -/
theorem extension_folder_collection :
    (∀ inputs r, collectExtensionFolder inputs = some r →
       r ≠ "" ∧ containsSubstr r ":" = false ∧ containsSubstr r "\\" = false ∧
         containsSubstr r "/" = false) ∧
    (∀ input rest, validExtensionFolder (trimSpace input) = false →
       collectExtensionFolder (input :: rest) = collectExtensionFolder rest) := by
  constructor
  · intro inputs
    induction inputs with
    | nil => intro r hr; simp [collectExtensionFolder] at hr
    | cons a rest ih =>
      intro r hr
      unfold collectExtensionFolder at hr
      by_cases hv : validExtensionFolder (trimSpace a) = true
      · rw [if_pos hv] at hr
        cases hr
        unfold validExtensionFolder at hv
        simp only [Bool.and_eq_true, Bool.not_eq_true', decide_eq_true_eq] at hv
        exact ⟨hv.1.1.1, hv.1.1.2, hv.1.2, hv.2⟩
      · rw [if_neg hv] at hr
        exact ih r hr
  · intro input rest hbad
    show (if validExtensionFolder (trimSpace input) = true then some (trimSpace input)
      else collectExtensionFolder rest) = collectExtensionFolder rest
    rw [if_neg (by simp [hbad])]

/-- Witness for C2: on the input stream `"C:\bad"`, `" "`, `"a/b"`,
`"MyExt "`, the loop rejects the first three and returns `MyExt`,
which the theorem certifies to be free of separators. -/
theorem extension_folder_collection_witness :
    collectExtensionFolder ["C:\\bad", " ", "a/b", "MyExt "] = some "MyExt" ∧
    ("MyExt" ≠ "" ∧ containsSubstr "MyExt" ":" = false ∧
      containsSubstr "MyExt" "\\" = false ∧ containsSubstr "MyExt" "/" = false) :=
  ⟨by decide, extension_folder_collection.1 ["C:\\bad", " ", "a/b", "MyExt "] "MyExt" (by decide)⟩

/-- Helper: any directory the inner glob scan returns is the parent
directory of a candidate that passed both the existence check and
the version probe. -/
theorem globScanMatches_accepted (e : JavaEnv) (ps : List String) (d : String)
    (h : globScanMatches e ps = some d) :
    ∃ p, e.statOk p = true ∧ isJava11 e p = true ∧ d = parentDir p := by
  induction ps with
  | nil => simp [globScanMatches] at h
  | cons p ps ih =>
    unfold globScanMatches at h
    by_cases hc : (e.statOk p && isJava11 e p) = true
    · rw [if_pos hc] at h
      cases h
      rcases Bool.and_eq_true_iff.mp hc with ⟨h1, h2⟩
      exact ⟨p, h1, h2, rfl⟩
    · rw [if_neg hc] at h
      exact ih h

/-- Helper: the same for the outer pattern loop of strategy 3. -/
theorem globScanPatterns_accepted (e : JavaEnv) (pats : List String) (d : String)
    (h : globScanPatterns e pats = some d) :
    ∃ p, e.statOk p = true ∧ isJava11 e p = true ∧ d = parentDir p := by
  induction pats with
  | nil => simp [globScanPatterns] at h
  | cons pat pats ih =>
    unfold globScanPatterns at h
    cases hm : globScanMatches e (e.glob pat) with
    | some d₂ =>
      rw [hm] at h
      simp only [Option.some.injEq] at h
      cases h
      exact globScanMatches_accepted e _ _ hm
    | none =>
      rw [hm] at h
      exact ih h

/-- Helper: when the patterns' glob results concatenate to a single
candidate that exists and passes the version probe, the pattern
loop returns that candidate's containing directory. -/
theorem globScanPatterns_single (e : JavaEnv) (pats : List String) (p : String)
    (hflat : (pats.map e.glob).flatten = [p])
    (hstat : e.statOk p = true) (hj : isJava11 e p = true) :
    globScanPatterns e pats = some (parentDir p) := by
  induction pats with
  | nil => simp at hflat
  | cons pat pats ih =>
    simp only [List.map_cons, List.flatten_cons] at hflat
    cases hg : e.glob pat with
    | nil =>
      rw [hg] at hflat
      simp only [List.nil_append] at hflat
      unfold globScanPatterns
      rw [hg]
      simpa [globScanMatches] using ih hflat
    | cons q qs =>
      rw [hg] at hflat
      rcases List.cons_eq_cons.mp hflat with ⟨hq, htail⟩
      rcases List.append_eq_nil.mp htail with ⟨hqs, _⟩
      unfold globScanPatterns
      rw [hg, hqs, hq]
      simp [globScanMatches, hstat, hj]

/-- C3 counterexample: in `promptOnlyJavaEnv` the version probe errors
for every path, so no candidate is ever version-confirmed, yet
resolution accepts the operator's fallback directory `C:\myjdk`
(its compiler exists but is never version-checked). -/
theorem findJava11Path_accepts_unverified :
    findJava11Path promptOnlyJavaEnv = "C:\\myjdk" ∧
    isJava11 promptOnlyJavaEnv "C:\\myjdk\\javac.exe" = false ∧
    promptOnlyJavaEnv.versionOutput "C:\\myjdk\\javac.exe" = none :=
  ⟨by decide, by decide, rfl⟩

/-- C3 (amended): the resolver tries environment home, search path,
well-known globs, then the interactive fallback, in that order,
returning the first success and `""` on exhaustion; candidates of
the three automatic strategies are accepted only after the version
probe confirms the expected token, and with `JAVA_HOME` unset and
the search-path lookup failing, a single confirmed glob match
yields its containing directory — but the interactive fallback
accepts a directory merely containing the compiler binary, without
a version check. -/
theorem findJava11Path_resolution :
    (∀ e : JavaEnv, e.javaHome = "" → e.lookPathJavac = none → e.goosWindows = true →
       ∀ p, (commonJdkPatterns.map e.glob).flatten = [p] → e.statOk p = true →
         isJava11 e p = true → findJava11Path e = parentDir p) ∧
    (∀ e d, stratEnvHome e = some d →
       ∃ p, e.statOk p = true ∧ isJava11 e p = true ∧ d = parentDir p) ∧
    (∀ e d, stratLookPath e = some d → ∃ p, isJava11 e p = true ∧ d = parentDir p) ∧
    (∀ e d, stratGlob e = some d →
       ∃ p, e.statOk p = true ∧ isJava11 e p = true ∧ d = parentDir p) ∧
    (∀ e d, stratEnvHome e = some d → findJava11Path e = d) ∧
    (∀ e : JavaEnv, stratEnvHome e = none → stratLookPath e = none → stratGlob e = none →
       findJava11Path e = stratPromptFallback e) := by
  refine ⟨?_, ?_, ?_, ?_, ?_, ?_⟩
  · intro e h1 h2 h3 p hflat hstat hj
    have hs1 : stratEnvHome e = none := by simp [stratEnvHome, h1]
    have hs2 : stratLookPath e = none := by simp [stratLookPath, h2]
    have hs3 : stratGlob e = some (parentDir p) := by
      unfold stratGlob
      rw [h3, if_pos rfl]
      exact globScanPatterns_single e commonJdkPatterns p hflat hstat hj
    unfold findJava11Path
    rw [hs1, hs2, hs3]
  · intro e d h
    unfold stratEnvHome at h
    by_cases hh : e.javaHome ≠ ""
    · rw [if_pos (by simpa using hh)] at h
      set jp := joinPath e.goosWindows (joinPath e.goosWindows e.javaHome "bin") "javac"
        ++ (if e.goosWindows = true then ".exe" else "") with hjp
      by_cases hc : (e.statOk jp && isJava11 e jp) = true
      · rw [if_pos hc] at h
        cases h
        rcases Bool.and_eq_true_iff.mp hc with ⟨hA, hB⟩
        exact ⟨jp, hA, hB, rfl⟩
      · rw [if_neg hc] at h
        cases h
    · rw [if_neg (by simpa using hh)] at h
      cases h
  · intro e d h
    unfold stratLookPath at h
    cases hl : e.lookPathJavac with
    | none => rw [hl] at h; cases h
    | some p =>
      simp only [hl] at h
      by_cases hj : isJava11 e p = true
      · rw [if_pos hj] at h
        cases h
        exact ⟨p, hj, rfl⟩
      · rw [if_neg hj] at h
        cases h
  · intro e d h
    unfold stratGlob at h
    by_cases hw : e.goosWindows = true
    · rw [if_pos hw] at h
      exact globScanPatterns_accepted e _ _ h
    · rw [if_neg hw] at h
      cases h
  · intro e d h
    unfold findJava11Path
    rw [h]
  · intro e h1 h2 h3
    unfold findJava11Path
    rw [h1, h2, h3]

/-- Witness for the amended C3: in the concrete scenario environment
(`JAVA_HOME` unset, no search-path hit, one confirmed glob match)
the resolver returns the match's containing directory. -/
theorem findJava11Path_resolution_witness :
    findJava11Path scenarioJavaEnv = "C:\\Program Files\\Java\\jdk-11.0.2\\bin" := by
  have h := findJava11Path_resolution.1 scenarioJavaEnv rfl rfl rfl
    "C:\\Program Files\\Java\\jdk-11.0.2\\bin\\javac.exe" (by decide) (by decide) (by decide)
  rw [h]
  decide

/-- C4 counterexample: with the extension directory initially holding
`old.jar` whose removal the operating system refuses, the deploy
phase still completes successfully — the failed removal only warns
— yet `old.jar` is present afterwards, so the directory does not
contain exactly `ServerExtension.jar`. -/
theorem deployProject_locked_jar_survives :
    (deployProject lockedOldJarDeployEnv).ok = true ∧
    (deployProject lockedOldJarDeployEnv).extDirFiles = ["old.jar", "ServerExtension.jar"] ∧
    "old.jar" ∈ (deployProject lockedOldJarDeployEnv).extDirFiles ∧
    (deployProject lockedOldJarDeployEnv).removeWarnings = 1 := by
  refine ⟨by decide, by decide, by decide, by decide⟩

/-- C4 (amended): on a successful deploy the new archive is present,
every pre-existing archive whose removal succeeded is gone (removal
precedes the copy), every archive whose removal failed survives
with one warning counted per failure, and when no removal fails —
in particular on a directory initially holding just `old.jar` with
its removal succeeding — the directory's archives are exactly
`ServerExtension.jar`. -/
theorem deployProject_replaces_archives (env : DeployEnv)
    (hmk : env.mkdirOk = true) (hcp : env.copyOk = true) :
    (deployProject env).ok = true ∧
    "ServerExtension.jar" ∈ (deployProject env).extDirFiles ∧
    (∀ f ∈ env.extDirFiles, endsWithJar f = true → env.removeFails f = false →
       f ≠ "ServerExtension.jar" → f ∉ (deployProject env).extDirFiles) ∧
    (∀ f ∈ env.extDirFiles, endsWithJar f = true → env.removeFails f = true →
       f ≠ "ServerExtension.jar" → f ∈ (deployProject env).extDirFiles) ∧
    (deployProject env).removeWarnings =
      (env.extDirFiles.filter (fun f => endsWithJar f && env.removeFails f)).length ∧
    ((∀ f ∈ env.extDirFiles, endsWithJar f = true → env.removeFails f = false) →
       (deployProject env).extDirFiles.filter endsWithJar = ["ServerExtension.jar"]) ∧
    (env.extDirFiles = ["old.jar"] → env.removeFails "old.jar" = false →
       (deployProject env).extDirFiles = ["ServerExtension.jar"]) := by
  have hres : deployProject env =
      ⟨true,
        (env.extDirFiles.filter (fun f => !(endsWithJar f && !(env.removeFails f)))).filter
            (fun f => !(f == "ServerExtension.jar")) ++ ["ServerExtension.jar"],
        ((env.extDirFiles.filter (fun f => endsWithJar f)).filter
            (fun f => env.removeFails f)).length⟩ := by
    simp [deployProject, hmk, hcp]
  have hse : endsWithJar "ServerExtension.jar" = true := by decide
  refine ⟨by rw [hres], ?_, ?_, ?_, ?_, ?_, ?_⟩
  · rw [hres]
    simp
  · intro f hf hjar hrm hne
    rw [hres]
    simp only [List.mem_append, List.mem_filter, List.mem_singleton]
    rintro (⟨⟨_, hkeep⟩, _⟩ | hlast)
    · rw [hjar, hrm] at hkeep
      simp at hkeep
    · exact hne hlast
  · intro f hf hjar hrm hne
    rw [hres]
    refine List.mem_append.mpr (Or.inl (List.mem_filter.mpr
      ⟨List.mem_filter.mpr ⟨hf, by rw [hjar, hrm]; rfl⟩, by simp [hne]⟩))
  · rw [hres]
    simp only [List.filter_filter]
    congr 1
    exact List.filter_congr (fun f _ => by rw [Bool.and_comm])
  · intro hall
    rw [hres]
    simp only [List.filter_append, List.filter_filter]
    rw [List.filter_eq_nil_iff.mpr ?_]
    · simp [List.filter, hse]
    · intro f hf
      cases hjar : endsWithJar f with
      | false => simp [hjar]
      | true => simp [hjar, hall f hf hjar]
  · intro hinit hrm
    rw [hres, hinit]
    have hoj : endsWithJar "old.jar" = true := by decide
    simp [List.filter, hoj, hrm]

/-- Witness for the amended C4: with the extension directory initially
holding `old.jar` and no removal failure, a successful deploy
leaves exactly `ServerExtension.jar`. -/
theorem deployProject_replaces_archives_witness :
    (deployProject ⟨true, ["old.jar"], fun _ => false, true⟩).extDirFiles
      = ["ServerExtension.jar"] :=
  (deployProject_replaces_archives ⟨true, ["old.jar"], fun _ => false, true⟩
    rfl rfl).2.2.2.2.2.2 rfl rfl

/-- Helper: a line failing the port/state filter contributes no kill
target. -/
theorem killLinePids_nonmatching (l : String) (h : listensOn9933 l = false) :
    killLinePids l = [] := by
  unfold killLinePids
  rw [if_neg (by simp [h])]

/-- Helper: when no line matches the filter, no kill target at all is
produced. -/
theorem killLinePids_flatten_nil (lines : List String)
    (h : ∀ x ∈ lines, listensOn9933 x = false) :
    (lines.map killLinePids).flatten = [] := by
  induction lines with
  | nil => rfl
  | cons a rest ih =>
    simp only [List.map_cons, List.flatten_cons]
    rw [killLinePids_nonmatching a (h a (List.mem_cons_self a rest)),
      ih (fun x hx => h x (List.mem_cons_of_mem a hx))]
    rfl

/-- C5: when the connection listing has exactly one line in listening
state mentioning port 9933, that line having at least five fields
with final field `4321`, the termination step invokes `taskkill`
exactly once, with identifier `4321` and no other. -/
theorem killPort9933_single_listener (lines : List String) (l : String)
    (hone : lines.filter listensOn9933 = [l])
    (hlen : (stringFields l).length ≥ 5)
    (hpid : (stringFields l).getLastD "" = "4321") :
    killPort9933 true (some lines) = ["4321"] := by
  have hlmatch : listensOn9933 l = true := by
    have hmem : l ∈ lines.filter listensOn9933 := by rw [hone]; exact List.mem_singleton.mpr rfl
    exact (List.mem_filter.mp hmem).2
  have hl : killLinePids l = ["4321"] := by
    unfold killLinePids
    rw [if_pos hlmatch]
    simp only [if_pos hlen, hpid]
  show (lines.map killLinePids).flatten = ["4321"]
  induction lines with
  | nil => simp at hone
  | cons a rest ih =>
    by_cases ha : listensOn9933 a = true
    · rw [List.filter_cons_of_pos ha] at hone
      rcases List.cons_eq_cons.mp hone with ⟨hal, hrest⟩
      subst hal
      simp only [List.map_cons, List.flatten_cons, hl]
      rw [killLinePids_flatten_nil rest (fun x hx => by
        by_contra hxm
        have : x ∈ rest.filter listensOn9933 := List.mem_filter.mpr ⟨hx, by
          cases hb : listensOn9933 x with
          | true => rfl
          | false => exact absurd hb hxm⟩
        rw [hrest] at this
        simp at this)]
      rfl
    · rw [List.filter_cons_of_neg (by simpa using ha)] at hone
      simp only [List.map_cons, List.flatten_cons,
        killLinePids_nonmatching a (Bool.eq_false_iff.mpr ha), List.nil_append]
      exact ih hone

/-- Witness for C5: a four-line synthetic `netstat` listing with one
listening entry on port 9933 owned by process 4321 yields exactly
one `taskkill` of 4321. -/
theorem killPort9933_single_listener_witness :
    killPort9933 true (some
      ["Active Connections",
       "  Proto  Local Address          Foreign Address        State           PID",
       "  TCP    0.0.0.0:9933           0.0.0.0:0              LISTENING       4321",
       "  TCP    0.0.0.0:135            0.0.0.0:0              LISTENING       888"])
      = ["4321"] :=
  killPort9933_single_listener _
    "  TCP    0.0.0.0:9933           0.0.0.0:0              LISTENING       4321"
    (by decide) (by decide) (by decide)

/-- Helper: the fallback fold of `buildClasspath` accumulates exactly
the concatenation of the per-pattern glob results. -/
theorem foldl_glob_concat (glob : String → List String) (win : Bool) (dir : String)
    (pats : List String) (acc : List String) :
    pats.foldl (fun acc pat => acc ++ glob (joinPath win dir pat)) acc
      = acc ++ (pats.map (fun pat => glob (joinPath win dir pat))).flatten := by
  induction pats generalizing acc with
  | nil => simp
  | cons p ps ih => simp [List.foldl_cons, ih, List.append_assoc]

/-- C6: with the library glob yielding exactly two archives, the
classpath is those entries joined by `;` on Windows and `:`
elsewhere in enumeration order; an empty glob falls back to the
required-archive patterns' matches; and when those are empty too
the classpath is `"."`. -/
theorem buildClasspath_spec :
    (∀ (win : Bool) (glob : String → List String) (dir a b : String),
       glob (joinPath win dir "*.jar") = [a, b] →
       buildClasspath win glob dir = a ++ (if win then ";" else ":") ++ b) ∧
    (∀ (win : Bool) (glob : String → List String) (dir : String) (ys : List String),
       glob (joinPath win dir "*.jar") = [] →
       (requiredJars.map (fun pat => glob (joinPath win dir pat))).flatten = ys →
       ys ≠ [] →
       buildClasspath win glob dir = joinSep (if win then ";" else ":") ys) ∧
    (∀ (win : Bool) (glob : String → List String) (dir : String),
       glob (joinPath win dir "*.jar") = [] →
       (∀ pat ∈ requiredJars, glob (joinPath win dir pat) = []) →
       buildClasspath win glob dir = ".") := by
  refine ⟨?_, ?_, ?_⟩
  · intro win glob dir a b h
    unfold buildClasspath
    rw [h]
    simp [joinSep]
  · intro win glob dir ys h hflat hne
    unfold buildClasspath
    rw [h]
    simp only [List.length_nil, if_pos rfl]
    rw [foldl_glob_concat, List.nil_append, hflat,
      if_neg (by simpa [List.length_eq_zero] using hne)]
    simp
  · intro win glob dir h hreq
    unfold buildClasspath
    rw [h]
    simp only [List.length_nil, if_pos rfl]
    rw [foldl_glob_concat, List.nil_append]
    have : (requiredJars.map (fun pat => glob (joinPath win dir pat))).flatten = [] := by
      rw [List.flatten_eq_nil_iff]
      intro xs hxs
      rcases List.mem_map.mp hxs with ⟨pat, hpat, rfl⟩
      exact hreq pat hpat
    rw [this]
    simp

/-- Witness for C6: a concrete glob with two archives on Windows
yields `a.jar;b.jar`. -/
theorem buildClasspath_spec_witness :
    buildClasspath true
      (fun pat => if pat == "C:\\lib\\*.jar" then ["a.jar", "b.jar"] else [])
      "C:\\lib" = "a.jar;b.jar" := by
  have h := buildClasspath_spec.1 true
    (fun pat => if pat == "C:\\lib\\*.jar" then ["a.jar", "b.jar"] else [])
    "C:\\lib" "a.jar" "b.jar" (by decide)
  rw [h]
  decide

/-- C7: when the recursive enumeration of the sources directory finds
no `.java` file, the build phase fails and neither the compiler nor
the packaging tool is ever invoked. -/
theorem buildProject_no_sources (env : BuildEnv)
    (h : findJavaFilesTree env.srcTree = []) :
    buildProject env = ⟨false, false, false⟩ := by
  unfold buildProject
  rw [h]
  rfl

/-- Witness for C7: a source tree holding only a readme produces no
compiler or packager invocation and a failed build. -/
theorem buildProject_no_sources_witness :
    buildProject ⟨FSTree.dir "src" [FSTree.file "README.md"], true, true⟩
      = ⟨false, false, false⟩ :=
  buildProject_no_sources ⟨FSTree.dir "src" [FSTree.file "README.md"], true, true⟩
    (by simp only [findJavaFilesTree]; decide)

/-- C8: cleanup on an already-clean source tree removes nothing,
reports no failure, leaves the tree unchanged (hence a second run
behaves identically), and cleanup returns success on every input,
whatever removals fail. -/
theorem cleanupProject_idempotent_clean :
    (∀ fs : CleanupFS, cleanSourceTree fs →
       (cleanupProject fs).classRemoved = 0 ∧
       (cleanupProject fs).jarRemoved = 0 ∧
       (cleanupProject fs).jarWarnings = 0 ∧
       (cleanupProject fs).ok = true ∧
       (cleanupProject fs).fs.srcFiles = fs.srcFiles ∧
       (cleanupProject fs).fs.rootFiles = fs.rootFiles ∧
       ((cleanupProject (cleanupProject fs).fs).classRemoved = 0 ∧
         (cleanupProject (cleanupProject fs).fs).jarRemoved = 0 ∧
         (cleanupProject (cleanupProject fs).fs).jarWarnings = 0 ∧
         (cleanupProject (cleanupProject fs).fs).ok = true)) ∧
    (∀ fs : CleanupFS, (cleanupProject fs).ok = true) := by
  have key : ∀ fs : CleanupFS, cleanSourceTree fs →
      (cleanupProject fs).classRemoved = 0 ∧
      (cleanupProject fs).jarRemoved = 0 ∧
      (cleanupProject fs).jarWarnings = 0 ∧
      (cleanupProject fs).ok = true ∧
      (cleanupProject fs).fs.srcFiles = fs.srcFiles ∧
      (cleanupProject fs).fs.rootFiles = fs.rootFiles := by
    intro fs hclean
    obtain ⟨hsrc, hroot⟩ := hclean
    have hclassT : fs.srcFiles.filter (fun p => lowerEndsWith p ".class") = [] :=
      List.filter_eq_nil_iff.mpr (fun p hp => by simp [hsrc p hp])
    have hjarT : fs.rootFiles.filter (fun p => endsWithJar p) = [] :=
      List.filter_eq_nil_iff.mpr (fun p hp => by simp [hroot p hp])
    have hsrcKeep : fs.srcFiles.filter
        (fun p => !(lowerEndsWith p ".class" && !(fs.removeFails p))) = fs.srcFiles :=
      List.filter_eq_self.mpr (fun p hp => by simp [hsrc p hp])
    have hrootKeep : fs.rootFiles.filter
        (fun p => !(endsWithJar p && !(fs.removeFails p))) = fs.rootFiles :=
      List.filter_eq_self.mpr (fun p hp => by simp [hroot p hp])
    unfold cleanupProject
    rw [hclassT, hjarT, hsrcKeep, hrootKeep]
    simp
  constructor
  · intro fs hclean
    obtain ⟨h1, h2, h3, h4, h5, h6⟩ := key fs hclean
    have hclean2 : cleanSourceTree (cleanupProject fs).fs := by
      rw [cleanSourceTree, h5, h6]
      exact hclean
    obtain ⟨g1, g2, g3, g4, _, _⟩ := key (cleanupProject fs).fs hclean2
    exact ⟨h1, h2, h3, h4, h5, h6, g1, g2, g3, g4⟩
  · intro fs
    rfl

/-- Witness for C8: a clean concrete tree (one source file, one
readme at the root, the system refusing every removal) removes and
warns about nothing and succeeds. -/
theorem cleanupProject_idempotent_clean_witness :
    (cleanupProject ⟨["Main.java"], ["README"], fun _ => true⟩).classRemoved = 0 ∧
    (cleanupProject ⟨["Main.java"], ["README"], fun _ => true⟩).jarRemoved = 0 ∧
    (cleanupProject ⟨["Main.java"], ["README"], fun _ => true⟩).jarWarnings = 0 ∧
    (cleanupProject ⟨["Main.java"], ["README"], fun _ => true⟩).ok = true := by
  have h := cleanupProject_idempotent_clean.1 ⟨["Main.java"], ["README"], fun _ => true⟩
    ⟨by intro p hp; fin_cases hp; decide, by intro p hp; fin_cases hp; decide⟩
  exact ⟨h.1, h.2.1, h.2.2.1, h.2.2.2.1⟩

/-- Helper: the short-circuiting presence check agrees with
non-emptiness of the full enumeration. -/
theorem hasJavaFilesTree_eq (t : FSTree) :
    hasJavaFilesTree t = !(findJavaFilesTree t).isEmpty := by
  induction t using hasJavaFilesTree.induct with
  | case1 n =>
    cases h : lowerEndsWith n ".java" <;>
      simp [hasJavaFilesTree, findJavaFilesTree, h]
  | case2 d => simp [hasJavaFilesTree, findJavaFilesTree]
  | case3 d c cs ih1 ih2 =>
    simp only [hasJavaFilesTree, findJavaFilesTree, ih1, ih2]
    cases findJavaFilesTree c <;> simp

/-- C9: source-tree validation succeeds exactly when the configured
path exists, holds a `src` subdirectory, and that subdirectory
recursively holds at least one `.java` file; in particular a
non-existent source root always fails validation. -/
theorem validateSourceDir_spec :
    (∀ fs : SourceFS, validateSourceDir fs = true ↔
       fs.dirExists = true ∧ fs.srcExists = true ∧ findJavaFilesTree fs.srcTree ≠ []) ∧
    (∀ fs : SourceFS, fs.dirExists = false → validateSourceDir fs = false) := by
  have key : ∀ fs : SourceFS, validateSourceDir fs = true ↔
      fs.dirExists = true ∧ fs.srcExists = true ∧ findJavaFilesTree fs.srcTree ≠ [] := by
    intro fs
    unfold validateSourceDir
    cases hd : fs.dirExists <;> cases hs : fs.srcExists <;>
      simp [hasJavaFilesTree_eq, List.isEmpty_iff]
  refine ⟨key, fun fs hd => ?_⟩
  cases hv : validateSourceDir fs with
  | false => rfl
  | true => rw [((key fs).mp hv).1] at hd; cases hd

/-- Witness for C9: a tree with one `.java` source validates, and the
same tree with a missing root fails. -/
theorem validateSourceDir_spec_witness :
    validateSourceDir ⟨true, true, FSTree.dir "src" [FSTree.file "A.java"]⟩ = true ∧
    validateSourceDir ⟨false, true, FSTree.dir "src" [FSTree.file "A.java"]⟩ = false :=
  ⟨(validateSourceDir_spec.1 ⟨true, true, FSTree.dir "src" [FSTree.file "A.java"]⟩).mpr
      ⟨rfl, rfl, by simp only [findJavaFilesTree]; decide⟩,
    validateSourceDir_spec.2 ⟨false, true, FSTree.dir "src" [FSTree.file "A.java"]⟩ rfl⟩

/-- C10: after every restart-phase run the stored window identifier is
empty; when a non-empty identifier was stored and still names a
live `cmd.exe`, the trace begins with its probe and forcible
termination, so the kill precedes the spawn; no kill happens
otherwise; and every successful run spawns a fresh window. -/
theorem restartServer_window_lifecycle (env : RestartEnv) :
    (restartServer env).storedPidAfter = "" ∧
    (env.storedPid ≠ "" → env.tasklistShowsCmd = true →
       ∃ tail, (restartServer env).events =
         RestartEvent.checkAlive env.storedPid :: RestartEvent.killOld env.storedPid :: tail) ∧
    ((env.storedPid = "" ∨ env.tasklistShowsCmd = false) →
       ∀ q, RestartEvent.killOld q ∉ (restartServer env).events) ∧
    ((restartServer env).ok = true → RestartEvent.spawnWindow ∈ (restartServer env).events) := by
  obtain ⟨pid, alive, wOk, sOk⟩ := env
  by_cases hp : pid = ""
  · subst hp
    cases alive <;> cases wOk <;> cases sOk <;>
      exact ⟨by simp [restartServer], by simp, by simp [restartServer], by simp [restartServer]⟩
  · cases alive <;> cases wOk <;> cases sOk <;>
      refine ⟨by simp [restartServer, hp], ?_, ?_, by simp [restartServer, hp]⟩ <;>
        simp [restartServer, hp]

/-- Witness for C10: with stored identifier `1234` naming a live
`cmd.exe` and both external steps succeeding, the identifier is
cleared, the trace opens with the probe and the kill of `1234`,
and a fresh window is spawned. -/
theorem restartServer_window_lifecycle_witness :
    (restartServer ⟨"1234", true, true, true⟩).storedPidAfter = "" ∧
    (∃ tail, (restartServer ⟨"1234", true, true, true⟩).events =
       RestartEvent.checkAlive "1234" :: RestartEvent.killOld "1234" :: tail) ∧
    RestartEvent.spawnWindow ∈ (restartServer ⟨"1234", true, true, true⟩).events := by
  have h := restartServer_window_lifecycle ⟨"1234", true, true, true⟩
  exact ⟨h.1, h.2.1 (by decide) rfl, h.2.2.2 rfl⟩

end SFDeploy
